import Mathlib

/-!
Shallow embedding of the hrtracker-suite core (the repository's `src/lib`:
`types.py`, `utils.py`, `producers.py`, `transformers.py`, `consumers.py`).

Modelling conventions:
* Python `int` values are `Int`; Python `float` values are exact rationals
  tagged `PyNum.f`.  No claim depends on binary floating-point rounding;
  the int/float tag matters only for `str()` rendering, which the plaintext
  log encoder uses.
* A Python number is falsy exactly when it equals `0`; `None` is modelled
  by `Option.none`.  `deferred_value` (from `utils.py`) raises `LookupError`
  on a falsy value, which the embedding mirrors literally.
* Generators are modelled by the list of items they would yield, together
  with explicit state transitions for full iteration (`iterFull`) and for
  pulling `k` items and abandoning the iterator (`iterTake`).
* Fallible operations return `Except PyErr`.
-/

attribute [local semireducible] Rat.add Rat.mul Rat.sub Rat.inv Rat.ofScientific

deriving instance DecidableEq for Except

/-- A Python numeric value: an `int` or a `float`.  The tag matters only for
`str()` rendering; arithmetic and comparisons go through the exact value. -/
inductive PyNum where
  | i (n : ℤ)
  | f (q : ℚ)
  deriving DecidableEq

/-- The exact value of a Python number. -/
def PyNum.toQ : PyNum → ℚ
  | .i n => (n : ℚ)
  | .f q => q

/-- Python truth testing on a number: falsy iff it equals zero. -/
def PyNum.falsy (v : PyNum) : Bool := decide (v.toQ = 0)

/-- Python subtraction: `int - int` is an `int`; anything involving a float
is a float. -/
def PyNum.sub : PyNum → PyNum → PyNum
  | .i a, .i b => .i (a - b)
  | a, b => .f (a.toQ - b.toQ)

/-- Python `int(x)` on a number: truncation toward zero. -/
def PyNum.toPyInt : PyNum → ℤ
  | .i n => n
  | .f q => if q < 0 then q.ceil else q.floor

/-- Fractional decimal digits (17 places, the float repr significand bound)
of a rational in `[0,1)`, by long division. -/
def pyFracDigits (a : ℚ) : List ℕ :=
  ((List.range 17).foldl
    (fun st _ =>
      let r := st.2 * 10
      (st.1 ++ [r.floor.toNat], r - (r.floor : ℚ)))
    (([] : List ℕ), a)).1

/-- Python `str()` of a float.  All floats this program builds are decimal
values `ms / 1000` of at most 17 significant digits, and for such values
the shortest round-tripping repr Python prints is the exact decimal
expansion, always with at least one digit after the point
(e.g. `str(1700000000.0) = "1700000000.0"`). -/
def pyFloatRepr (q : ℚ) : String :=
  let sgn := if q < 0 then "-" else ""
  let a := if q < 0 then -q else q
  let ip := a.floor.toNat
  let ds := ((pyFracDigits (a - (ip : ℚ))).reverse.dropWhile (fun d => d == 0)).reverse
  let fracStr := if ds.isEmpty then "0" else String.mk (ds.map fun d => Char.ofNat (48 + d))
  sgn ++ toString ip ++ "." ++ fracStr

/-- Python `str()` of a number. -/
def PyNum.str : PyNum → String
  | .i n => toString n
  | .f q => pyFloatRepr q

/-- The Python exceptions the modelled code can raise. -/
inductive PyErr where
  | lookupError
  | valueError
  deriving DecidableEq

/-- `utils.deferred_value`: return the value if it is truthy, otherwise
raise `LookupError` ("not ready").  Note the source tests truthiness
(`if val:`), not presence, so a present-but-falsy value also raises. -/
def deferred_value {α : Type} (falsy : α → Bool) : Option α → Except PyErr α
  | none => .error .lookupError
  | some v => if falsy v then .error .lookupError else .ok v

/-- `types.Datum`: a (timestamp, heart rate) pair.  Timestamps are Python
numbers (the binary decoder yields ints, the plaintext decoder floats);
heart rates are ints. -/
structure Datum where
  ts : PyNum
  hr : ℤ
  deriving DecidableEq

/-- The timestamp of a `Datum` as an exact rational. -/
def Datum.tq (d : Datum) : ℚ := d.ts.toQ

/-- The `_points` slot of `HRTrackerData`: `None`, a generator (modelled by
the list of items it will yield), or a concrete list buffer.  A Python
generator object is always truthy; a list is truthy iff non-empty. -/
inductive PointsSrc where
  | nil
  | gen (l : List Datum)
  | buf (l : List Datum)
  deriving DecidableEq

/-- `types.HRTrackerData`: points source plus the deferred `_start`, `_end`,
`_cals` slots. -/
structure HRTrackerData where
  points : PointsSrc
  startv : Option PyNum
  endv : Option PyNum
  cals : Option PyNum
  deriving DecidableEq

/-- `HRTrackerData.__init__(iterable, cals)`: stores the points source and
calorie value and marks `_start`/`_end` unavailable (`_reset_times`). -/
def HRTrackerData.new (iterable : PointsSrc) (cals : Option PyNum) : HRTrackerData :=
  ⟨iterable, none, none, cals⟩

/-- The `points` property setter: install a generator and `_reset_times`. -/
def setPoints (d : HRTrackerData) (l : List Datum) : HRTrackerData :=
  { d with points := .gen l, startv := none, endv := none }

/-- A freshly decoded stream: `HRTrackerData()` followed by
`data.points = generator` (as `producers.decode_stream` builds it). -/
def genTracker (l : List Datum) : HRTrackerData :=
  setPoints (HRTrackerData.new .nil none) l

/-- The `cals` property setter. -/
def setCals (d : HRTrackerData) (v : PyNum) : HRTrackerData :=
  { d with cals := some v }

/-- The `start_time` property: `deferred_value('start_time', self._start)`. -/
def startTime (d : HRTrackerData) : Except PyErr PyNum :=
  deferred_value PyNum.falsy d.startv

/-- The `end_time` property: `deferred_value('end_time', self._end)`. -/
def endTime (d : HRTrackerData) : Except PyErr PyNum :=
  deferred_value PyNum.falsy d.endv

/-- The `cals` property getter: `deferred_value('cals', self._cals)`. -/
def calsGet (d : HRTrackerData) : Except PyErr PyNum :=
  deferred_value PyNum.falsy d.cals

/-- Truthiness of an optional Python number (`None` and `0` are falsy). -/
def optNumFalsy : Option PyNum → Bool
  | none => true
  | some v => v.falsy

/-- One turn of the loop body in `HRTrackerData.__iter__`:
`if not start: start = point[0]` and `end = point[0]`. -/
def seStep (a : Option PyNum × Option PyNum) (p : Datum) : Option PyNum × Option PyNum :=
  (if optNumFalsy a.1 then some p.ts else a.1, some p.ts)

/-- The `start`/`end` locals of `HRTrackerData.__iter__` after the loop. -/
def startEnd (l : List Datum) : Option PyNum × Option PyNum :=
  l.foldl seStep (none, none)

/-- Truthiness of the `_points` slot as tested by `if self._points:`. -/
def pointsTruthy : PointsSrc → Bool
  | .nil => false
  | .gen _ => true
  | .buf l => !l.isEmpty

/-- Iterating `HRTrackerData.__iter__` to exhaustion: if `_points` is falsy
the first pull raises `LookupError` (`deferred_value('points', None)`);
otherwise all items are yielded, then `_start`/`_end` are recorded and
`_reset_generator` clears `_points`. -/
def iterFull (d : HRTrackerData) : Except PyErr (List Datum) × HRTrackerData :=
  match d.points with
  | .nil => (.error .lookupError, d)
  | .gen l =>
      (.ok l, { d with points := .nil, startv := (startEnd l).1, endv := (startEnd l).2 })
  | .buf l =>
      if l.isEmpty then (.error .lookupError, d)
      else (.ok l, { d with points := .nil, startv := (startEnd l).1, endv := (startEnd l).2 })

/-- Pulling `k` items from `HRTrackerData.__iter__` and then abandoning the
iterator.  With `k = 0` the generator body never starts.  The code after
the `for` loop (recording `_start`/`_end`, clearing `_points`) runs only on
the pull that exhausts the source, so pulling `k ≤ length` items leaves
every slot untouched (a generator source is advanced; a list buffer is
not consumed).  Pulling more than `length` items exhausts the stream. -/
def iterTake (d : HRTrackerData) (k : ℕ) : Except PyErr (List Datum) × HRTrackerData :=
  if k = 0 then (.ok [], d)
  else
    match d.points with
    | .nil => (.error .lookupError, d)
    | .gen l =>
        if k ≤ l.length then (.ok (l.take k), { d with points := .gen (l.drop k) })
        else iterFull d
    | .buf l =>
        if l.isEmpty then (.error .lookupError, d)
        else if k ≤ l.length then (.ok (l.take k), d)
        else iterFull d

/-! ### Splitter (`transformers.HRTrackerSplitter`) -/

/-- The `if not start_t: start_t = datum[0]` update at the top of the
splitter loop: a falsy `start_t` (`None`, or a timestamp equal to `0`) is
replaced by the current timestamp. -/
def updStart (st : Option ℚ) (ts : ℚ) : ℚ :=
  match st with
  | none => ts
  | some s => if s = 0 then ts else s

/-- The loop of `HRTrackerSplitter.__iter__`, carrying the buffer and the
current `start_t`.  A datum at or beyond `start_t + split_at` closes the
current chunk; the final buffer is always yielded. -/
def splitGo (t : ℚ) : List Datum → List Datum → Option ℚ → List (List Datum)
  | [], buf, _ => [buf]
  | d :: rest, buf, st =>
      if updStart st d.tq + t ≤ d.tq then buf :: splitGo t rest [d] (some d.tq)
      else splitGo t rest (buf ++ [d]) (some (updStart st d.tq))

/-- The chunk buffers yielded by `HRTrackerSplitter.__iter__` for a source
stream `l` and `split_at = t`. -/
def splitChunks (t : ℚ) (l : List Datum) : List (List Datum) :=
  splitGo t l [] none

/-- The `HRTrackerData` chunk objects the splitter yields: each is
`HRTrackerData(buf, 1)` — a list buffer plus the literal calorie value 1. -/
def splitterChunkData (t : ℚ) (l : List Datum) : List HRTrackerData :=
  (splitChunks t l).map (fun b => HRTrackerData.new (.buf b) (some (.i 1)))

/-- Within one chunk, every sample after the first lies strictly before
`first timestamp + split_at` (the boundary rule of the claim). -/
def chunkInnerOk (t : ℚ) : List Datum → Prop
  | [] => True
  | h :: tl => ∀ x ∈ tl, x.tq < h.tq + t

/-- The first sample of the later chunk is at least `split_at` beyond the
first sample of the earlier chunk. -/
def headBoundOk (t : ℚ) (c₁ c₂ : List Datum) : Prop :=
  ∀ h₁ ∈ c₁.head?, ∀ h₂ ∈ c₂.head?, h₁.tq + t ≤ h₂.tq

/-- The boundary discipline of the splitter claim over a whole chunk list. -/
def chunksOk (t : ℚ) : List (List Datum) → Prop
  | [] => True
  | [c] => chunkInnerOk t c
  | c₁ :: c₂ :: r => chunkInnerOk t c₁ ∧ headBoundOk t c₁ c₂ ∧ chunksOk t (c₂ :: r)

/-! ### Plaintext decoder (`producers._decode_pnn_sgt_file`)

An input line is modelled as `Option String`: `none` is a line of bytes
that fails UTF-8 decoding (the source catches `UnicodeDecodeError` and
substitutes `''`). -/

/-- Python `str.split(';')`: split a character list at every `;`, keeping
empty pieces. -/
def splitSemi : List Char → List Char → List (List Char)
  | [], acc => [acc.reverse]
  | c :: rest, acc =>
      if c = ';' then acc.reverse :: splitSemi rest []
      else splitSemi rest (c :: acc)

/-- Strip leading and trailing whitespace (what `int()` tolerates). -/
def trimChars (cs : List Char) : List Char :=
  ((cs.dropWhile Char.isWhitespace).reverse.dropWhile Char.isWhitespace).reverse

/-- The value of a non-empty all-digit character list. -/
def digitsVal (cs : List Char) : ℤ :=
  cs.foldl (fun a c => a * 10 + ((c.toNat - 48 : ℕ) : ℤ)) 0

/-- Python `int(s)` on a string: optional surrounding whitespace, optional
sign, then decimal digits; anything else raises `ValueError` (`none`). -/
def pyParseInt (s : String) : Option ℤ :=
  let t := trimChars s.data
  let neg := t.head? = some '-'
  let core := if t.head? = some '-' ∨ t.head? = some '+' then t.tail else t
  if !core.isEmpty && core.all Char.isDigit then
    some (if neg then -digitsVal core else digitsVal core)
  else none

/-- The structural check of the decoder loop: split the decoded line on
`;`; keep the (timestamp, value) fields only when there are exactly 4
fields and the 3rd is literally `Heart rate`. -/
def lineFields (ol : Option String) : Option (String × String) :=
  match splitSemi (ol.getD "").data [] with
  | [t, _e, c, v] =>
      if c = "Heart rate".data then some (String.mk t, String.mk v) else none
  | _ => none

/-- The decoder loop: skipped lines are dropped; a retained line whose
timestamp or value field is not an integer literal raises `ValueError`,
aborting the generator (the samples yielded so far stand, the rest of the
input is never read).  Retained samples are `Datum(int(t)/1000, int(v))`,
the timestamp a Python float. -/
def pnnDecodeGo : List (Option String) → List Datum × Option PyErr
  | [] => ([], none)
  | ol :: rest =>
      match lineFields ol with
      | none => pnnDecodeGo rest
      | some (t, v) =>
          match pyParseInt t, pyParseInt v with
          | some ms, some hr =>
              let r := pnnDecodeGo rest
              (⟨.f ((ms : ℚ) / 1000), hr⟩ :: r.1, r.2)
          | _, _ => ([], some .valueError)

/-- `_decode_pnn_sgt_file` restricted to its sample stream.  (The source
additionally extracts a calorie value from the optional filename after the
loop; no claim here depends on that step.) -/
def decode_pnn_sgt_file (lines : List (Option String)) : List Datum × Option PyErr :=
  pnnDecodeGo lines

/-- The sample a single line contributes when it is well formed. -/
def pnnSampleOf (ol : Option String) : Option Datum :=
  match lineFields ol with
  | some (t, v) =>
      match pyParseInt t, pyParseInt v with
      | some ms, some hr => some ⟨.f ((ms : ℚ) / 1000), hr⟩
      | _, _ => none
  | none => none

/-- A line the decoder can process without raising: either it fails the
structural check (and is skipped) or both numeric fields parse. -/
def lineWellBehaved (ol : Option String) : Bool :=
  match lineFields ol with
  | some (t, v) => (pyParseInt t).isSome && (pyParseInt v).isSome
  | none => true

/-! ### Plaintext encoder (`consumers.PnnSgtLogfile`) -/

/-- One line of `PnnSgtLogfile.__iter__`:
`f'{point[0]}000;;Heart rate;{point[1]}\n'` — note the timestamp is
rendered by `str()` and the string `000` is appended to it. -/
def encodeLine (d : Datum) : String :=
  d.ts.str ++ "000;;Heart rate;" ++ toString d.hr ++ "\n"

/-- The line stream the encoder yields for a drained source. -/
def pnnEncode (l : List Datum) : List String := l.map encodeLine

/-- `consumers.PnnSgtLogfile` state: the wrapped tracker and the deferred
`_start`, `_elapsed`, `_cals`, `_filename` slots. -/
structure PnnSgtLogfile where
  tracker : Option HRTrackerData
  startv : Option PyNum
  elapsed : Option PyNum
  calsv : Option ℤ
  filename : Option String
  deriving DecidableEq

/-- `PnnSgtLogfile.__init__(tracker)`. -/
def PnnSgtLogfile.new (t : HRTrackerData) : PnnSgtLogfile :=
  ⟨some t, none, none, none, none⟩

/-- Iterating `PnnSgtLogfile.__iter__` to exhaustion.  The wrapped tracker
is drained; if it yielded at least one point the derived slots are filled
from the tracker's deferred fields (whose reads can themselves raise, in
the source order `start_time`, `end_time - _start`, `int(cals)`). -/
def logfileDrain (p : PnnSgtLogfile) : Except PyErr (List String) × PnnSgtLogfile :=
  match p.tracker with
  | none => (.error .lookupError, p)
  | some tr =>
      match iterFull tr with
      | (.error e, tr') => (.error e, { p with tracker := some tr' })
      | (.ok pts, tr') =>
          let lines := pnnEncode pts
          if pts.isEmpty then (.ok lines, { p with tracker := some tr' })
          else
            match startTime tr' with
            | .error e => (.error e, { p with tracker := some tr' })
            | .ok s =>
                match endTime tr' with
                | .error e => (.error e, { p with tracker := some tr', startv := some s })
                | .ok en =>
                    match calsGet tr' with
                    | .error e =>
                        (.error e, { p with tracker := some tr', startv := some s,
                                            elapsed := some (en.sub s) })
                    | .ok c =>
                        let ci := c.toPyInt
                        let fn := "#date=" ++ s.str ++ "000#time=" ++ (en.sub s).str ++
                                  "000#calories=" ++ toString ci ++
                                  "#type=HeartRate#spmax=0#version=4.txt"
                        (.ok lines, { p with tracker := some tr', startv := some s,
                                             elapsed := some (en.sub s), calsv := some ci,
                                             filename := some fn })

/-- The `tracker` property setter plus `_reset_vals`: install a new source
and mark `_start`, `_elapsed`, `_filename` unavailable.  (`_reset_vals`
does not touch `_cals`.) -/
def setTracker (p : PnnSgtLogfile) (t : HRTrackerData) : PnnSgtLogfile :=
  { p with tracker := some t, startv := none, elapsed := none, filename := none }

/-- The encoder's `start_time` property. -/
def logStartTime (p : PnnSgtLogfile) : Except PyErr PyNum :=
  deferred_value PyNum.falsy p.startv

/-- The encoder's `elapsed_time` property. -/
def logElapsedTime (p : PnnSgtLogfile) : Except PyErr PyNum :=
  deferred_value PyNum.falsy p.elapsed

/-- The encoder's `cals` property (an `int` once computed; `0` is falsy). -/
def logCals (p : PnnSgtLogfile) : Except PyErr ℤ :=
  deferred_value (fun n => decide (n = 0)) p.calsv

/-- The encoder's `filename` property (an empty string would be falsy). -/
def logFilename (p : PnnSgtLogfile) : Except PyErr String :=
  deferred_value String.isEmpty p.filename

/-! ### Heart-points consumer (`consumers.HeartPointConfig`) -/

/-- Python `round()` on an exact value: nearest integer, ties to the even
neighbour. -/
def pyRound (q : ℚ) : ℤ :=
  if q - q.floor < 1/2 then q.floor
  else if 1/2 < q - q.floor then q.floor + 1
  else if q.floor % 2 = 0 then q.floor else q.floor + 1

/-- The three zone cutoffs `HeartPointConfig.get_cutoffs` derives:
`hr_max * pct` for the moderate, vigorous and extra-vigorous zones. -/
structure HeartPointConfig where
  c0 : ℚ
  c1 : ℚ
  c2 : ℚ

/-- `get_cutoffs(hr_max, pct_mod, pct_hi, pct_xhi)`. -/
def mkHeartPointConfig (hr_max : ℤ) (pm ph px : ℚ) : HeartPointConfig :=
  ⟨hr_max * pm, hr_max * ph, hr_max * px⟩

/-- `_points_for_pair(x0, x1)`: elapsed minutes times the weight of the
highest zone (checked from the extra-vigorous zone downward) whose cutoff
the average heart rate reaches; `0.0` below the moderate cutoff. -/
def pairPoints (cfg : HeartPointConfig) (x0 x1 : Datum) : ℚ :=
  if cfg.c2 ≤ ((x1.hr : ℚ) + (x0.hr : ℚ)) / 2 then ((x1.tq - x0.tq) / 60) * 3
  else if cfg.c1 ≤ ((x1.hr : ℚ) + (x0.hr : ℚ)) / 2 then ((x1.tq - x0.tq) / 60) * 2
  else if cfg.c0 ≤ ((x1.hr : ℚ) + (x0.hr : ℚ)) / 2 then ((x1.tq - x0.tq) / 60) * 1
  else 0

/-- The accumulation loop of `heart_points`: `oldval` is the previous
sample, `acc` the running `npoints`. -/
def hpGo (cfg : HeartPointConfig) (acc : ℚ) (x0 : Datum) : List Datum → ℚ
  | [] => acc
  | x1 :: r => hpGo cfg (acc + pairPoints cfg x0 x1) x1 r

/-- The `npoints` total of `heart_points` over a drained stream. -/
def heartPointsRaw (cfg : HeartPointConfig) : List Datum → ℚ
  | [] => 0
  | x :: xs => hpGo cfg 0 x xs

/-- `heart_points`, restricted to the `points` component of the returned
`HeartPointObject`: the accumulated total rounded once at the end.  (The
full record also carries the drained stream's start/end times and its
calorie value defaulted to 0; no claim below depends on those fields.) -/
def heart_points (cfg : HeartPointConfig) (l : List Datum) : ℤ :=
  pyRound (heartPointsRaw cfg l)

/-- The zone weight as the specification words it: the highest zone index
`z` (checked from the extra-vigorous zone downward) with
`avg ≥ cutoff[z]` contributes weight `z + 1`, else `0`. -/
def zoneWeight (cfg : HeartPointConfig) (avg : ℚ) : ℕ :=
  if cfg.c2 ≤ avg then 3 else if cfg.c1 ≤ avg then 2 else if cfg.c0 ≤ avg then 1 else 0

/-- A consecutive pair's contribution as the specification words it:
elapsed minutes times the zone weight of the average heart rate. -/
def specPairPoints (cfg : HeartPointConfig) (x0 x1 : Datum) : ℚ :=
  ((x1.tq - x0.tq) / 60) * (zoneWeight cfg (((x0.hr : ℚ) + (x1.hr : ℚ)) / 2) : ℚ)

/-- The score as the specification words it: sum the contributions of all
consecutive pairs, round once at the end. -/
def specHeartPoints (cfg : HeartPointConfig) (l : List Datum) : ℤ :=
  pyRound (((l.zip l.tail).map (fun p => specPairPoints cfg p.1 p.2)).sum)

/-! ### Helper lemmas -/

/-- The `end` local of the iteration loop is the last timestamp. -/
theorem foldl_seStep_snd (l : List Datum) (h : l ≠ []) :
    ∀ a : Option PyNum × Option PyNum, (l.foldl seStep a).2 = some ((l.getLast h).ts) := by
  induction l with
  | nil => exact absurd rfl h
  | cons x xs ih =>
      intro a
      cases xs with
      | nil => simp [seStep]
      | cons y r =>
          rw [List.foldl_cons]
          rw [ih (by simp)]
          simp [List.getLast_cons]

/-- Once the `start` local holds a truthy timestamp it is never replaced. -/
theorem foldl_seStep_fst (l : List Datum) (s : PyNum) (hs : s.falsy = false) :
    ∀ e : Option PyNum, (l.foldl seStep (some s, e)).1 = some s := by
  induction l with
  | nil => intro e; rfl
  | cons x xs ih =>
      intro e
      rw [List.foldl_cons]
      show (xs.foldl seStep (seStep (some s, e) x)).1 = some s
      have : seStep (some s, e) x = (some s, some x.ts) := by
        simp [seStep, optNumFalsy, hs]
      rw [this, ih]

/-- For a non-empty stream of truthy timestamps the iteration loop records
the first timestamp as `start` and the last as `end`. -/
theorem startEnd_eq (l : List Datum) (h : l ≠ [])
    (hall : ∀ d ∈ l, d.ts.falsy = false) :
    startEnd l = (some ((l.head h).ts), some ((l.getLast h).ts)) := by
  cases l with
  | nil => exact absurd rfl h
  | cons x xs =>
      have hx : x.ts.falsy = false := hall x (by simp)
      have hstep : seStep (none, none) x = (some x.ts, some x.ts) := by
        simp [seStep, optNumFalsy]
      unfold startEnd
      rw [List.foldl_cons, hstep]
      cases xs with
      | nil => simp
      | cons y r =>
          refine Prod.ext ?_ ?_
          · rw [foldl_seStep_fst _ _ hx]; simp
          · rw [foldl_seStep_snd (y :: r) (by simp)]
            simp [List.getLast_cons]

/-! ### Claim theorems -/

/-- C1: the claim says a calorie estimate set to `0` reads back as `0`
rather than as unavailable.  The code disagrees: `deferred_value` tests
truthiness, so a stored `0` raises `LookupError` exactly like a value that
was never computed.  This theorem evaluates the embedded code at the
failing input (a buffer-backed stream whose `cals` was set to `0`). -/
theorem cals_zero_reads_unavailable :
    calsGet (setCals (HRTrackerData.new (.buf [⟨.i 100, 90⟩]) none) (.i 0)) =
      .error .lookupError ∧
    calsGet (setCals (HRTrackerData.new (.buf [⟨.i 100, 90⟩]) none) (.i 7)) = .ok (.i 7) := by
  exact ⟨rfl, rfl⟩

/-- C2: the claim says encoding then decoding returns the same
(timestamp, heart-rate) sequence up to whole-second truncation.  The code
disagrees on any float timestamp (and every sample the plaintext decoder
produces has a float timestamp): the encoder renders the timestamp with
`str()` and appends the characters `000`, so the millisecond field of the
emitted line is `1700000000.0000`, which `int()` rejects; re-decoding
raises `ValueError` and yields no samples at all.  This theorem evaluates
the embedded code at the failing input. -/
theorem pnn_roundtrip_fails_on_float_timestamp :
    pnnEncode [⟨.f 1700000000, 150⟩] = ["1700000000.0000;;Heart rate;150\n"] ∧
    decode_pnn_sgt_file ((pnnEncode [⟨.f 1700000000, 150⟩]).map some) =
      ([], some .valueError) := by
  exact ⟨by decide, by decide⟩

/-- C3: for a generator-backed stream, `start_time`, `end_time` and `cals`
(never set by a decoder) raise `LookupError` before iteration and after
any partial iteration abandoned before exhaustion: pulling `k ≤ length`
items yields the first `k` samples and leaves every deferred slot in its
initial unavailable state (the recording code runs only on the pull that
exhausts the generator). -/
theorem gen_tracker_fields_unavailable_until_complete (l : List Datum) (k : ℕ)
    (hk : k ≤ l.length) :
    (∀ m : List Datum,
        startTime (genTracker m) = .error .lookupError ∧
        endTime (genTracker m) = .error .lookupError ∧
        calsGet (genTracker m) = .error .lookupError) ∧
    iterTake (genTracker l) k = (.ok (l.take k), genTracker (l.drop k)) := by
  constructor
  · intro m; exact ⟨rfl, rfl, rfl⟩
  · unfold iterTake
    by_cases h0 : k = 0
    · subst h0; simp
    · simp only [h0, if_false]
      show (if k ≤ l.length then _ else _) = _
      rw [if_pos hk]
      rfl

/-- Witness for C3 at a concrete stream and `k = 1`. -/
theorem gen_tracker_fields_unavailable_until_complete_witness :
    (∀ m : List Datum,
        startTime (genTracker m) = .error .lookupError ∧
        endTime (genTracker m) = .error .lookupError ∧
        calsGet (genTracker m) = .error .lookupError) ∧
    iterTake (genTracker [⟨.i 5, 100⟩, ⟨.i 9, 101⟩]) 1 =
      (.ok [⟨.i 5, 100⟩], genTracker [⟨.i 9, 101⟩]) :=
  gen_tracker_fields_unavailable_until_complete [⟨.i 5, 100⟩, ⟨.i 9, 101⟩] 1 (by decide)

/-- C9: the claim says re-wrapping a drained `PnnSgtLogfile` with a new
tracker makes `start_time`, `elapsed_time`, `cals` and `filename` all
unavailable.  The code disagrees for `cals`: `_reset_vals` clears
`_start`, `_elapsed` and `_filename` but not `_cals` (which `__init__`
does initialise alongside the others), so the stale calorie value of the
previous stream keeps reading back.  This theorem evaluates the embedded
code: after draining a two-sample tracker with `cals = 250` and then
installing a new tracker, the three reset fields raise `LookupError` but
`cals` still returns `250`. -/
theorem logfile_reset_keeps_stale_cals :
    (logfileDrain (PnnSgtLogfile.new
        (setCals (genTracker [⟨.i 100, 90⟩, ⟨.i 200, 95⟩]) (.i 250)))).1 =
      .ok ["100000;;Heart rate;90\n", "200000;;Heart rate;95\n"] ∧
    logStartTime (setTracker
        (logfileDrain (PnnSgtLogfile.new
          (setCals (genTracker [⟨.i 100, 90⟩, ⟨.i 200, 95⟩]) (.i 250)))).2
        (genTracker [⟨.i 300, 91⟩])) = .error .lookupError ∧
    logElapsedTime (setTracker
        (logfileDrain (PnnSgtLogfile.new
          (setCals (genTracker [⟨.i 100, 90⟩, ⟨.i 200, 95⟩]) (.i 250)))).2
        (genTracker [⟨.i 300, 91⟩])) = .error .lookupError ∧
    logFilename (setTracker
        (logfileDrain (PnnSgtLogfile.new
          (setCals (genTracker [⟨.i 100, 90⟩, ⟨.i 200, 95⟩]) (.i 250)))).2
        (genTracker [⟨.i 300, 91⟩])) = .error .lookupError ∧
    logCals (setTracker
        (logfileDrain (PnnSgtLogfile.new
          (setCals (genTracker [⟨.i 100, 90⟩, ⟨.i 200, 95⟩]) (.i 250)))).2
        (genTracker [⟨.i 300, 91⟩])) = .ok 250 := by
  refine ⟨by decide, rfl, rfl, rfl, by decide⟩

/-- C10: a generator-backed stream iterated to completion returns all its
samples once; a second iteration attempt raises `LookupError` on the first
pull (`_points` was cleared, and `deferred_value('points', None)` raises)
without touching the stream's state, while the `start_time`/`end_time`
recorded by the completed pass stay readable with their recorded values
(stated for streams of truthy, i.e. non-zero, timestamps). -/
theorem exhausted_tracker_reiteration_errors (l : List Datum) (h1 : l ≠ [])
    (h2 : ∀ d ∈ l, d.ts.falsy = false) :
    (iterFull (genTracker l)).1 = .ok l ∧
    iterTake (iterFull (genTracker l)).2 1 =
      (.error .lookupError, (iterFull (genTracker l)).2) ∧
    startTime (iterFull (genTracker l)).2 = .ok ((l.head h1).ts) ∧
    endTime (iterFull (genTracker l)).2 = .ok ((l.getLast h1).ts) := by
  have hse := startEnd_eq l h1 h2
  have hhead : ((l.head h1).ts).falsy = false := h2 _ (List.head_mem h1)
  have hlast : ((l.getLast h1).ts).falsy = false := h2 _ (List.getLast_mem h1)
  refine ⟨rfl, rfl, ?_, ?_⟩
  · show deferred_value PyNum.falsy (startEnd l).1 = _
    rw [hse]
    simp [deferred_value, hhead]
  · show deferred_value PyNum.falsy (startEnd l).2 = _
    rw [hse]
    simp [deferred_value, hlast]

/-- Witness for C10 at a concrete two-sample stream. -/
theorem exhausted_tracker_reiteration_errors_witness :
    (iterFull (genTracker [⟨.i 7, 80⟩, ⟨.i 11, 82⟩])).1 =
      .ok [⟨.i 7, 80⟩, ⟨.i 11, 82⟩] ∧
    iterTake (iterFull (genTracker [⟨.i 7, 80⟩, ⟨.i 11, 82⟩])).2 1 =
      (.error .lookupError, (iterFull (genTracker [⟨.i 7, 80⟩, ⟨.i 11, 82⟩])).2) ∧
    startTime (iterFull (genTracker [⟨.i 7, 80⟩, ⟨.i 11, 82⟩])).2 =
      .ok ((([⟨.i 7, 80⟩, ⟨.i 11, 82⟩] : List Datum).head (by decide)).ts) ∧
    endTime (iterFull (genTracker [⟨.i 7, 80⟩, ⟨.i 11, 82⟩])).2 =
      .ok ((([⟨.i 7, 80⟩, ⟨.i 11, 82⟩] : List Datum).getLast (by decide)).ts) :=
  exhausted_tracker_reiteration_errors [⟨.i 7, 80⟩, ⟨.i 11, 82⟩] (by decide) (by decide)

/-- C6 counterexample: the claim says reading a chunk's calorie estimate
fails as unavailable.  The splitter constructs every chunk as
`HRTrackerData(buf, 1)`, so the read succeeds with the invented placeholder
`1`: here on the single chunk produced from a one-sample stream. -/
theorem split_chunk_cals_reads_one :
    splitterChunkData 3600 [⟨.i 100, 90⟩] =
      [HRTrackerData.new (.buf [⟨.i 100, 90⟩]) (some (.i 1))] ∧
    calsGet (HRTrackerData.new (.buf [⟨.i 100, 90⟩]) (some (.i 1))) = .ok (.i 1) := by
  exact ⟨by decide, rfl⟩

/-- C6 as amended: every chunk stream the splitter yields carries the
constant placeholder calorie value `1` — not a per-chunk estimate, but
also not an unavailable field: reading it succeeds and returns `1`. -/
theorem split_chunks_cals_placeholder_one (t : ℚ) (l : List Datum)
    (c : HRTrackerData) (hc : c ∈ splitterChunkData t l) :
    calsGet c = .ok (.i 1) := by
  simp only [splitterChunkData, List.mem_map] at hc
  obtain ⟨b, _, rfl⟩ := hc
  rfl

/-- Witness for the amended C6 at a concrete stream. -/
theorem split_chunks_cals_placeholder_one_witness :
    HRTrackerData.new (.buf [⟨.i 100, 90⟩]) (some (.i 1)) ∈
      splitterChunkData 3600 [⟨.i 100, 90⟩] ∧
    calsGet (HRTrackerData.new (.buf [⟨.i 100, 90⟩]) (some (.i 1))) = .ok (.i 1) :=
  ⟨by decide,
   split_chunks_cals_placeholder_one 3600 [⟨.i 100, 90⟩] _ (by decide)⟩

/-- C4 counterexample: the claim says no single malformed line aborts the
decode.  A line with exactly 4 fields and 3rd field `Heart rate` but a
non-integer timestamp or value field is not skipped: `int()` raises an
uncaught `ValueError`, the decode stops, and the valid line after it is
lost. -/
theorem pnn_decode_aborts_on_bad_int_line :
    decode_pnn_sgt_file
        [some "10000;;Heart rate;100\n",
         some "abc;;Heart rate;xyz\n",
         some "20000;;Heart rate;101\n"] =
      ([⟨.f 10, 100⟩], some .valueError) := by
  decide

/-- C4 as amended: a line that fails to decode as text, does not split
into exactly 4 `;`-separated fields, or whose 3rd field is not literally
`Heart rate`, is skipped and decoding continues; over inputs whose
retained lines all carry integer-literal numeric fields the decoder yields
exactly the samples of the valid lines and raises nothing.  (A retained
line with a non-integer numeric field instead aborts the decode with
`ValueError`.) -/
theorem pnn_decode_skips_structurally_bad_lines (ls : List (Option String))
    (h : ∀ ol ∈ ls, lineWellBehaved ol = true) :
    decode_pnn_sgt_file ls = (ls.filterMap pnnSampleOf, none) := by
  induction ls with
  | nil => rfl
  | cons ol rest ih =>
      have hol : lineWellBehaved ol = true := h ol (by simp)
      have hrest : ∀ x ∈ rest, lineWellBehaved x = true := fun x hx => h x (by simp [hx])
      have ihr : pnnDecodeGo rest = (rest.filterMap pnnSampleOf, none) := ih hrest
      show pnnDecodeGo (ol :: rest) = _
      unfold pnnDecodeGo
      rcases hlf : lineFields ol with _ | ⟨t, v⟩
      · have hso : pnnSampleOf ol = none := by simp [pnnSampleOf, hlf]
        simp [hlf, List.filterMap_cons, hso, ihr]
      · unfold lineWellBehaved at hol
        rw [hlf] at hol
        rcases ht : pyParseInt t with _ | ms
        · simp [ht] at hol
        rcases hv : pyParseInt v with _ | hr
        · simp [ht, hv] at hol
        have hso : pnnSampleOf ol = some ⟨.f ((ms : ℚ) / 1000), hr⟩ := by
          simp [pnnSampleOf, hlf, ht, hv]
        simp [hlf, ht, hv, List.filterMap_cons, hso, ihr]

/-- Witness for the amended C4: a valid line, an unsplittable line, an
undecodable byte line and an interleaved `Cadence` record. -/
theorem pnn_decode_skips_structurally_bad_lines_witness :
    (∀ ol ∈ [some "1000;;Heart rate;100\n", some "garbage", none,
             some "2000;;Cadence;90\n"], lineWellBehaved ol = true) ∧
    decode_pnn_sgt_file
        [some "1000;;Heart rate;100\n", some "garbage", none,
         some "2000;;Cadence;90\n"] =
      ([some "1000;;Heart rate;100\n", some "garbage", none,
        some "2000;;Cadence;90\n"].filterMap pnnSampleOf, none) :=
  ⟨by decide,
   pnn_decode_skips_structurally_bad_lines
     [some "1000;;Heart rate;100\n", some "garbage", none,
      some "2000;;Cadence;90\n"] (by decide)⟩

/-- The first sample of the first chunk a `splitGo` run will emit. -/
def firstHead (cs : List (List Datum)) : Option Datum :=
  match cs with
  | [] => none
  | c :: _ => c.head?

/-- Every datum the splitter loop sees lands in exactly one buffer, and
the buffers come out in order: joining the chunks restores the input. -/
theorem splitGo_join (t : ℚ) :
    ∀ (l buf : List Datum) (st : Option ℚ), (splitGo t l buf st).flatten = buf ++ l := by
  intro l
  induction l with
  | nil => intro buf st; simp [splitGo]
  | cons d rest ih =>
      intro buf st
      unfold splitGo
      by_cases hc : updStart st d.tq + t ≤ d.tq
      · rw [if_pos hc]
        simp [ih]
      · rw [if_neg hc]
        rw [ih]
        simp

/-- Invariant proof for the splitter loop: starting from a non-empty
buffer whose first (and tracked) timestamp is the non-zero `s` and whose
later members all lie below `s + t`, the emitted chunk list satisfies the
boundary discipline, and its first chunk still starts with the buffer's
first sample. -/
theorem splitGo_chunksOk (t : ℚ) (_ht : 0 < t) :
    ∀ (l buf : List Datum) (s : ℚ),
      (∀ d ∈ l, d.tq ≠ 0) → s ≠ 0 →
      buf.head?.map Datum.tq = some s →
      (∀ x ∈ buf.tail, x.tq < s + t) →
      firstHead (splitGo t l buf (some s)) = buf.head? ∧
      chunksOk t (splitGo t l buf (some s)) := by
  intro l
  induction l with
  | nil =>
      intro buf s _ _ hhead htail
      cases buf with
      | nil => simp at hhead
      | cons hb tlb =>
          simp only [Option.map, List.head?] at hhead
          have hbs : hb.tq = s := by injection hhead
          refine ⟨rfl, ?_⟩
          show chunkInnerOk t (hb :: tlb)
          intro x hx
          have := htail x hx
          rw [hbs]
          exact this
  | cons d rest ih =>
      intro buf s hall hs hhead htail
      have hds : updStart (some s) d.tq = s := by simp [updStart, hs]
      have hd0 : d.tq ≠ 0 := hall d (by simp)
      have hrest : ∀ x ∈ rest, x.tq ≠ 0 := fun x hx => hall x (by simp [hx])
      unfold splitGo
      rw [hds]
      by_cases hc : s + t ≤ d.tq
      · rw [if_pos hc]
        have hinner : chunkInnerOk t buf := by
          cases buf with
          | nil => simp at hhead
          | cons hb tlb =>
              simp only [Option.map, List.head?] at hhead
              have hbs : hb.tq = s := by injection hhead
              intro x hx
              rw [hbs]
              exact htail x hx
        obtain ⟨ihfh, ihok⟩ := ih [d] d.tq hrest hd0 (by simp) (by simp)
        rcases hsp : splitGo t rest [d] (some d.tq) with _ | ⟨c₂, r₂⟩
        · rw [hsp] at ihok ihfh
          simp [firstHead] at ihfh
        · rw [hsp] at ihok ihfh
          refine ⟨rfl, hinner, ?_, ihok⟩
          intro h₁ hh₁ h₂ hh₂
          cases buf with
          | nil => simp at hhead
          | cons hb tlb =>
              simp only [Option.map, List.head?] at hhead
              have hbs : hb.tq = s := by injection hhead
              simp only [List.head?, Option.mem_def] at hh₁
              injection hh₁ with hh₁e
              subst hh₁e
              simp only [firstHead] at ihfh
              rw [ihfh] at hh₂
              simp only [List.head?, Option.mem_def] at hh₂
              injection hh₂ with hh₂e
              subst hh₂e
              rw [hbs]
              exact hc
      · rw [if_neg hc]
        cases buf with
        | nil => simp at hhead
        | cons hb tlb =>
            have htail' : ∀ x ∈ (hb :: tlb ++ [d]).tail, x.tq < s + t := by
              intro x hx
              simp only [List.tail_cons] at hx ⊢
              rcases List.mem_append.mp hx with h | h
              · exact htail x h
              · simp at h
                subst h
                exact lt_of_not_le hc
            have hh' : ((hb :: tlb) ++ [d]).head?.map Datum.tq = some s := by
              simpa using hhead
            obtain ⟨ihfh, ihok⟩ := ih ((hb :: tlb) ++ [d]) s hrest hs hh' (by simpa using htail')
            refine ⟨?_, ihok⟩
            rw [ihfh]
            simp

/-- C5 counterexample: the claim's boundary rule fails on a stream whose
first timestamp is `0`.  The splitter's `if not start_t:` treats the falsy
timestamp `0` as unset, so `start_t` becomes `10` rather than `0` and the
sample at `3605 ≥ 0 + 3600` does not open a new chunk: the whole input
comes back as one chunk whose last member violates the boundary rule. -/
theorem splitter_boundary_violated_at_zero_timestamp :
    splitChunks 3600 [⟨.i 0, 100⟩, ⟨.i 10, 100⟩, ⟨.i 3605, 100⟩] =
      [[⟨.i 0, 100⟩, ⟨.i 10, 100⟩, ⟨.i 3605, 100⟩]] ∧
    ¬ chunksOk 3600 [[⟨.i 0, 100⟩, ⟨.i 10, 100⟩, ⟨.i 3605, 100⟩]] := by
  constructor
  · decide
  · intro hok
    have h := hok (⟨.i 3605, 100⟩ : Datum) (by simp)
    have : ((3605 : ℚ)) < 0 + 3600 := by
      simpa [Datum.tq, PyNum.toQ] using h
    linarith

/-- C5: joining the splitter's chunks always restores the input stream
exactly; and — amended — for a positive `split_at` and a stream with no
zero timestamps (where the `if not start_t:` truthiness test coincides
with the None test the boundary rule presumes) a new chunk begins exactly
when a sample reaches the current chunk's first timestamp plus `split_at`:
each chunk's later samples stay below that threshold and each next chunk
starts at or beyond it. -/
theorem splitter_coverage_and_boundaries (t : ℚ) (l : List Datum) :
    (splitChunks t l).flatten = l ∧
    (0 < t → (∀ d ∈ l, d.tq ≠ 0) → chunksOk t (splitChunks t l)) := by
  constructor
  · simpa using splitGo_join t l [] none
  · intro ht hall
    cases l with
    | nil =>
        show chunksOk t [[]]
        exact trivial
    | cons d rest =>
        have hd0 : d.tq ≠ 0 := hall d (by simp)
        have hrest : ∀ x ∈ rest, x.tq ≠ 0 := fun x hx => hall x (by simp [hx])
        unfold splitChunks splitGo
        have hupd : updStart none d.tq = d.tq := rfl
        rw [hupd]
        rw [if_neg (by linarith)]
        have := (splitGo_chunksOk t ht rest [d] d.tq hrest hd0 (by simp) (by simp)).2
        simpa [hupd] using this

/-- Witness for C5 at a concrete stream that splits into two chunks. -/
theorem splitter_coverage_and_boundaries_witness :
    (splitChunks 3600 [⟨.i 100, 90⟩, ⟨.i 200, 91⟩, ⟨.i 4000, 92⟩]).flatten =
      [⟨.i 100, 90⟩, ⟨.i 200, 91⟩, ⟨.i 4000, 92⟩] ∧
    chunksOk 3600 (splitChunks 3600 [⟨.i 100, 90⟩, ⟨.i 200, 91⟩, ⟨.i 4000, 92⟩]) :=
  ⟨(splitter_coverage_and_boundaries 3600 _).1,
   (splitter_coverage_and_boundaries 3600 [⟨.i 100, 90⟩, ⟨.i 200, 91⟩, ⟨.i 4000, 92⟩]).2
     (by norm_num) (by decide)⟩

/-- Batteries' computable `Rat.floor` agrees with the `⌊⌋` of the order
structure. -/
theorem rat_floor_eq_floor (q : ℚ) : q.floor = ⌊q⌋ := by
  have h1 : q.floor ≤ ⌊q⌋ := Int.le_floor.mpr (Rat.le_floor.mp le_rfl)
  have h2 : ⌊q⌋ ≤ q.floor := Rat.le_floor.mpr (Int.floor_le q)
  omega

/-- `pyRound` never exceeds the floor by more than one. -/
theorem pyRound_le_floor_add_one (q : ℚ) : pyRound q ≤ q.floor + 1 := by
  unfold pyRound
  split_ifs <;> omega

/-- `pyRound` is at least the floor. -/
theorem floor_le_pyRound (q : ℚ) : q.floor ≤ pyRound q := by
  unfold pyRound
  split_ifs <;> omega

/-- Python's banker's rounding is monotone. -/
theorem pyRound_mono {q r : ℚ} (h : q ≤ r) : pyRound q ≤ pyRound r := by
  have hf : q.floor ≤ r.floor := by
    rw [rat_floor_eq_floor, rat_floor_eq_floor]
    exact Int.floor_le_floor h
  rcases lt_or_eq_of_le hf with hlt | heq
  · have h1 := pyRound_le_floor_add_one q
    have h2 := floor_le_pyRound r
    omega
  · have hflq : (q.floor : ℚ) ≤ q := by
      rw [rat_floor_eq_floor]; exact Int.floor_le q
    unfold pyRound
    rw [← heq]
    have hd : q - q.floor ≤ r - q.floor := by linarith
    split_ifs <;> first | omega | linarith

/-- The code's pair contribution equals the specification's
zone-weight formulation. -/
theorem pairPoints_eq_spec (cfg : HeartPointConfig) (x0 x1 : Datum) :
    pairPoints cfg x0 x1 = specPairPoints cfg x0 x1 := by
  unfold pairPoints specPairPoints zoneWeight
  have hcomm : ((x0.hr : ℚ) + (x1.hr : ℚ)) / 2 = ((x1.hr : ℚ) + (x0.hr : ℚ)) / 2 := by ring
  rw [hcomm]
  split_ifs <;> push_cast <;> ring

/-- The accumulator loop of `heart_points` computes the sum of the
specification's per-pair contributions over consecutive pairs. -/
theorem hpGo_eq_sum (cfg : HeartPointConfig) :
    ∀ (xs : List Datum) (x0 : Datum) (a : ℚ),
      hpGo cfg a x0 xs =
        a + (((x0 :: xs).zip xs).map (fun p => specPairPoints cfg p.1 p.2)).sum := by
  intro xs
  induction xs with
  | nil => intro x0 a; simp [hpGo]
  | cons x1 r ih =>
      intro x0 a
      show hpGo cfg (a + pairPoints cfg x0 x1) x1 r = _
      rw [ih]
      rw [List.zip_cons_cons, List.map_cons, List.sum_cons, pairPoints_eq_spec]
      ring

/-- C7: `heart_points` computes, for each consecutive pair, elapsed
minutes times the weight of the highest zone (checked from extra-vigorous
downward) reached by the pair's average heart rate, sums over all pairs
and rounds once at the end; and on the spec's concrete scenario
(`hr_max = 220`, cutoffs 132/154/187, samples `(0, 160)` and `(600, 160)`)
it returns 20. -/
theorem heart_points_formula_and_scenario :
    heart_points (mkHeartPointConfig 220 (6/10) (7/10) (85/100))
      [⟨.i 0, 160⟩, ⟨.i 600, 160⟩] = 20 ∧
    ∀ (cfg : HeartPointConfig) (l : List Datum),
      heart_points cfg l = specHeartPoints cfg l := by
  constructor
  · decide
  · intro cfg l
    cases l with
    | nil => rfl
    | cons x xs =>
        show pyRound (hpGo cfg 0 x xs) =
          pyRound ((((x :: xs).zip xs).map (fun p => specPairPoints cfg p.1 p.2)).sum)
        rw [hpGo_eq_sum, zero_add]

/-- Raising both heart rates (timestamps unchanged, non-negative elapsed
time) cannot lower a pair's contribution. -/
theorem pairPoints_mono (cfg : HeartPointConfig) {x0 x1 y0 y1 : Datum}
    (h01 : x0.tq ≤ x1.tq) (e0 : x0.ts = y0.ts) (e1 : x1.ts = y1.ts)
    (hh0 : x0.hr ≤ y0.hr) (hh1 : x1.hr ≤ y1.hr) :
    pairPoints cfg x0 x1 ≤ pairPoints cfg y0 y1 := by
  have et0 : y0.tq = x0.tq := by rw [Datum.tq, Datum.tq, e0]
  have et1 : y1.tq = x1.tq := by rw [Datum.tq, Datum.tq, e1]
  have hnm : 0 ≤ (x1.tq - x0.tq) / 60 := by
    apply div_nonneg (by linarith) (by norm_num)
  have c0 : (x0.hr : ℚ) ≤ (y0.hr : ℚ) := by exact_mod_cast hh0
  have c1 : (x1.hr : ℚ) ≤ (y1.hr : ℚ) := by exact_mod_cast hh1
  unfold pairPoints
  rw [et0, et1]
  split_ifs <;> linarith

/-- Loop-level monotonicity: pointwise-raised heart rates with unchanged,
non-decreasing timestamps and a not-smaller accumulator give a
not-smaller total. -/
theorem hpGo_mono (cfg : HeartPointConfig) :
    ∀ {xs ys : List Datum},
      List.Forall₂ (fun p q => p.ts = q.ts ∧ p.hr ≤ q.hr) xs ys →
      ∀ {x0 y0 : Datum} {a b : ℚ},
        x0.ts = y0.ts → x0.hr ≤ y0.hr → a ≤ b →
        List.Chain' (fun p q => p.tq ≤ q.tq) (x0 :: xs) →
        hpGo cfg a x0 xs ≤ hpGo cfg b y0 ys := by
  intro xs ys hf
  induction hf with
  | nil =>
      intro x0 y0 a b _ _ hab _
      exact hab
  | @cons x1 y1 xs' ys' h1 _h2 ih =>
      intro x0 y0 a b e0 hh0 hab hch
      show hpGo cfg (a + pairPoints cfg x0 x1) x1 xs' ≤
        hpGo cfg (b + pairPoints cfg y0 y1) y1 ys'
      have h01 : x0.tq ≤ x1.tq := (List.chain'_cons.mp hch).1
      exact ih h1.1 h1.2
        (add_le_add hab (pairPoints_mono cfg h01 e0 h1.1 hh0 h1.2))
        (List.chain'_cons.mp hch).2

/-- C8: for a fixed configuration, replacing every heart rate by one at
least as large (timestamps unchanged, stream sorted by timestamp as the
data model assumes) never decreases the `heart_points` total. -/
theorem heart_points_monotone (cfg : HeartPointConfig) (l l' : List Datum)
    (hs : List.Chain' (fun p q => p.tq ≤ q.tq) l)
    (hrel : List.Forall₂ (fun p q => p.ts = q.ts ∧ p.hr ≤ q.hr) l l') :
    heart_points cfg l ≤ heart_points cfg l' := by
  unfold heart_points
  apply pyRound_mono
  cases hrel with
  | nil => exact le_rfl
  | cons h1 h2 =>
      exact hpGo_mono cfg h2 h1.1 h1.2 le_rfl hs

/-- Witness for C8: raising both heart rates from 100 to 160 lifts the
two-sample stream's score from 0 to 20. -/
theorem heart_points_monotone_witness :
    heart_points (mkHeartPointConfig 220 (6/10) (7/10) (85/100))
      [⟨.i 0, 100⟩, ⟨.i 600, 100⟩] ≤
    heart_points (mkHeartPointConfig 220 (6/10) (7/10) (85/100))
      [⟨.i 0, 160⟩, ⟨.i 600, 160⟩] :=
  heart_points_monotone _ _ _
    (by simp [List.chain'_cons, Datum.tq, PyNum.toQ])
    (List.Forall₂.cons ⟨rfl, by decide⟩ (List.Forall₂.cons ⟨rfl, by decide⟩ List.Forall₂.nil))

